import Mathlib

/-!
# Verification of the create-pdf configuration/transformation pipeline

Shallow embedding of `src/create-pdf.py` (class `PDFConverter`): the
configuration resolver (`process_files_array`), the directory expansion
(`get_files_from_path`, recursive branch), the per-page transformation
dispatcher (`apply_transformations`), the image-to-PDF conversion step
(`convert_to_pdf`, image branch), and the top-level `process` boundary.

Strings are compared exactly as Python compares them: lexicographically by
code point over the character sequence.  Sorting is the stable sort Python's
`sorted` performs, realised here by `List.insertionSort`.
-/

/-- Lexicographic code-point comparison of character lists; this is the
order Python uses to compare strings. -/
def charListLe : List Char → List Char → Bool
  | [], _ => true
  | _ :: _, [] => false
  | a :: as, b :: bs => if a < b then true else if b < a then false else charListLe as bs

/-- `strLe a b` is Python's `a <= b` on strings. -/
def strLe (a b : String) : Bool := charListLe a.data b.data

/-- Python's `sorted` on a list of strings: a stable sort by `strLe`. -/
def sortStrings (l : List String) : List String :=
  List.insertionSort (fun a b : String => strLe a b = true) l

theorem charListLe_cons (a b : Char) (as bs : List Char) :
    charListLe (a :: as) (b :: bs) =
      if a < b then true else if b < a then false else charListLe as bs := rfl

theorem charListLe_cons_iff (a b : Char) (as bs : List Char) :
    charListLe (a :: as) (b :: bs) = true ↔ a < b ∨ (a = b ∧ charListLe as bs = true) := by
  rw [charListLe_cons]
  split_ifs with h1 h2
  · simp [h1]
  · simp only [false_iff]
    rintro (h | ⟨h, -⟩)
    · exact h1 h
    · exact absurd h2 (by rw [h]; exact lt_irrefl b)
  · have hab : a = b := le_antisymm (not_lt.mp h2) (not_lt.mp h1)
    simp [h1, hab]

theorem charListLe_total : ∀ a b, charListLe a b = true ∨ charListLe b a = true := by
  intro a
  induction a with
  | nil => intro b; left; rfl
  | cons x xs ih =>
    intro b
    cases b with
    | nil => right; rfl
    | cons y ys =>
      rcases lt_trichotomy x y with h | h | h
      · left; rw [charListLe_cons_iff]; exact Or.inl h
      · rcases ih ys with h2 | h2
        · left; rw [charListLe_cons_iff]; exact Or.inr ⟨h, h2⟩
        · right; rw [charListLe_cons_iff]; exact Or.inr ⟨h.symm, h2⟩
      · right; rw [charListLe_cons_iff]; exact Or.inl h

theorem charListLe_trans :
    ∀ a b c, charListLe a b = true → charListLe b c = true → charListLe a c = true := by
  intro a
  induction a with
  | nil => intro b c _ _; rfl
  | cons x xs ih =>
    intro b c hab hbc
    cases b with
    | nil => simp [charListLe] at hab
    | cons y ys =>
      cases c with
      | nil => simp [charListLe] at hbc
      | cons z zs =>
        rw [charListLe_cons_iff] at hab hbc ⊢
        rcases hab with h1 | ⟨h1, h1r⟩
        · rcases hbc with h2 | ⟨h2, -⟩
          · exact Or.inl (lt_trans h1 h2)
          · exact Or.inl (h2 ▸ h1)
        · rcases hbc with h2 | ⟨h2, h2r⟩
          · exact Or.inl (h1 ▸ h2)
          · exact Or.inr ⟨h1.trans h2, ih ys zs h1r h2r⟩

instance : IsTotal String (fun a b => strLe a b = true) :=
  ⟨fun a b => charListLe_total a.data b.data⟩

instance : IsTrans String (fun a b => strLe a b = true) :=
  ⟨fun a b c => charListLe_trans a.data b.data c.data⟩

/-! ## Configuration data model (§3 of the design; `load_config` output)

An element of the top-level `files` array is a path string, an entry object
(a Python dict with optional `files` and `options` keys), or anything else
(skipped by the `isinstance` chain in `process_files_array`).  An element of
an entry object's inner `files` list is either a string or a non-string
value; `sorted` / `Path` raise `TypeError` on the latter. -/

/-- One element of an entry object's inner `files` list. -/
inductive InnerItem where
  | str (s : String)
  | nonstr
deriving DecidableEq

/-- `True`/`False` of Python's `isinstance(item, str)` for inner elements. -/
def InnerItem.isStr : InnerItem → Bool
  | .str _ => true
  | .nonstr => false

def InnerItem.getStr : InnerItem → Option String
  | .str s => some s
  | .nonstr => none

/-- An entry object: a dict whose `files` and `options` keys may be absent
(`'files' in item` / `'options' in item` checks in the source). -/
structure EntryObj where
  files : Option (List InnerItem)
  options : Option (List String)
deriving DecidableEq

/-- One element of the top-level `files` array. -/
inductive ConfigItem where
  | str (s : String)
  | obj (e : EntryObj)
  | other
deriving DecidableEq

/-- The loaded configuration: a dict with a `files` key (`load_config`
raises otherwise). -/
structure Config where
  files : List ConfigItem
deriving DecidableEq

/-- A (path, options) pair produced by `process_files_array`. -/
structure Resolved where
  path : String
  options : List String
deriving DecidableEq

/-- Lines 170-175 of the source: `current_options = inherited_options.copy()`,
then `new_options = [opt for opt in item['options'] if opt not in
current_options]` and `current_options.extend(new_options)`. -/
def mergeOptions (inherited newOpts : List String) : List String :=
  inherited ++ newOpts.filter (fun o => !inherited.contains o)

/-- The effective options of an entry object: merged only when the
`options` key is present. -/
def entryOptions (inherited : List String) (e : EntryObj) : List String :=
  match e.options with
  | none => inherited
  | some opts => mergeOptions inherited opts

/-- One iteration of the `for item in files_array` loop of
`process_files_array` (lines 160-189).  `expand` stands for
`self.get_files_from_path`; it is a parameter because the filesystem is
ambient state.  A `.error ()` result models the `TypeError` that Python's
`sorted` raises on incomparable elements or that `Path(path)` raises on a
non-string path: any non-string inner element makes the call raise before
the entry contributes files. -/
def processItem (expand : String → Bool → List String) (inherited : List String) :
    ConfigItem → Except Unit (List Resolved)
  | .str s => .ok ((expand s false).map (fun f => ⟨f, inherited⟩))
  | .obj e =>
      let current := entryOptions inherited e
      let isRec := current.contains "recursive"
      match e.files with
      | none => .ok []
      | some inner =>
          if inner.all InnerItem.isStr then
            .ok ((sortStrings (inner.filterMap InnerItem.getStr)).flatMap
              (fun p => (expand p isRec).map (fun f => ⟨f, current⟩)))
          else .error ()
  | .other => .ok []

/-- `PDFConverter.process_files_array` (lines 141-191): iterate the entries
in order, appending each entry's contribution; an exception anywhere
discards the whole result. -/
def process_files_array (expand : String → Bool → List String) (inherited : List String) :
    List ConfigItem → Except Unit (List Resolved)
  | [] => .ok []
  | item :: rest =>
      (processItem expand inherited item).bind fun head =>
        (process_files_array expand inherited rest).bind fun tail =>
          .ok (head ++ tail)

/-! ## Recursive directory expansion (`get_files_from_path`, lines 127-133)

`os.walk` yields one `(root, dirnames, filenames)` triple per directory under
the starting directory; the roots are pairwise distinct paths.  The source
iterates `sorted(os.walk(str(path)))` — the triples sorted by their root path
string — and, inside each directory, `sorted(filenames)`, appending
`str(Path(root) / filename)`.  We take the bag of triples (root path plus
file names, the unused `dirnames` component dropped) as the input. -/

/-- One `(root, filenames)` pair of `os.walk`. -/
structure WalkDir where
  path : String
  files : List String
deriving DecidableEq

/-- `sorted(os.walk(...))`: the walk triples sorted by root path string
(roots are distinct, so the tuple comparison never reaches the later
components). -/
def sortWalkDirs (l : List WalkDir) : List WalkDir :=
  List.insertionSort (fun a b : WalkDir => strLe a.path b.path = true) l

/-- The recursive branch of `PDFConverter.get_files_from_path`: the
accumulating double loop `for root, _, filenames in sorted(os.walk(...)):
for filename in sorted(filenames): files.append(str(Path(root)/filename))`. -/
def get_files_recursive (walk : List WalkDir) : List String :=
  (sortWalkDirs walk).foldl
    (fun acc d => acc ++ (sortStrings d.files).map (fun f => d.path ++ "/" ++ f)) []

/-- The per-directory listing of one directory: its regular files in
lexicographical order, as full paths. -/
def perDirectoryListing (d : WalkDir) : List String :=
  (sortStrings d.files).map (fun f => d.path ++ "/" ++ f)

/-- The spec's description of recursive expansion (§4.1): the concatenation
of per-directory file listings, the directories taken in lexicographical
order of their paths. -/
def specDirectoryConcat (walk : List WalkDir) : List String :=
  (sortWalkDirs walk).flatMap perDirectoryListing

/-- The ordering the spec rules out: one global lexicographic sort of all
file paths found anywhere under the root. -/
def globalSortAllPaths (walk : List WalkDir) : List String :=
  sortStrings (walk.flatMap (fun d => d.files.map (fun f => d.path ++ "/" ++ f)))

/-- A walk of a directory `d` holding file `z.pdf` and a subdirectory
`d/sub` holding file `a.pdf`. -/
def walkExample : List WalkDir := [⟨"d", ["z.pdf"]⟩, ⟨"d/sub", ["a.pdf"]⟩]

/-! ## Image conversion temp file (`convert_to_pdf`, lines 249-262)

The image branch runs `img.save(pdf_path, 'PDF')`, then
`reader = pypdf.PdfReader(pdf_path)`, then `os.remove(pdf_path)` — three
sequential statements with no `try/finally`.  We track whether the
transient `.temp.pdf` file exists and let the read-back either succeed or
raise. -/

/-- Whether the transient `.temp.pdf` exists. -/
structure ImgConvState where
  tempExists : Bool
deriving DecidableEq

/-- `img.save(pdf_path, 'PDF')`: creates the transient file. -/
def saveTempFile (s : ImgConvState) : ImgConvState := { s with tempExists := true }

/-- `os.remove(pdf_path)`: deletes the transient file. -/
def removeTempFile (s : ImgConvState) : ImgConvState := { s with tempExists := false }

/-- `pypdf.PdfReader(pdf_path)`: succeeds or raises, leaving the
filesystem unchanged. -/
def readBackTemp (readOk : Bool) (s : ImgConvState) : Except Unit ImgConvState :=
  if readOk then .ok s else .error ()

/-- The image branch of `convert_to_pdf`, statement by statement: save the
temp file, read it back, remove it, return.  The returned pair is the final
filesystem state and the normal/exceptional outcome. -/
def convert_image_run (readOk : Bool) (s : ImgConvState) : ImgConvState × Except Unit Unit :=
  let s1 := saveTempFile s
  match readBackTemp readOk s1 with
  | .ok s2 => (removeTempFile s2, .ok ())
  | .error e => (s1, .error e)

/-! ## Page geometry (`apply_transformations`, lines 193-232)

Modelled from the spec: the PDF codec collaborator (§6) exposes pages with
mutable geometry — `rotate` accumulates a rotation entry in degrees whose
visible orientation is its value mod 360 (§4.3), `scale` multiplies
displayed coordinates componentwise, and `translate_x`/`translate_y` shift
them; the media box width `w` and height `h` stay those of the original
page.  The dispatcher itself is translated from the source. -/

/-- A point of page content in page coordinates. -/
structure Pt where
  x : ℚ
  y : ℚ
deriving DecidableEq

/-- A page: its accumulated rotation entry, media box width and height, and
the map from original content coordinates to displayed coordinates. -/
structure Page where
  rot : ℤ
  w : ℚ
  h : ℚ
  tf : Pt → Pt

/-- Modelled from the spec: `page.rotate(a)` adds `a` to the accumulated
rotation entry. -/
def pageRotate (a : ℤ) (p : Page) : Page := { p with rot := p.rot + a }

/-- Modelled from the spec: the visible orientation of a page is its
rotation entry mod 360. -/
def pageOrientation (p : Page) : ℤ := p.rot % 360

/-- Modelled from the spec: `page.scale(sx, sy)` multiplies displayed
coordinates componentwise. -/
def pageScale (sx sy : ℚ) (p : Page) : Page :=
  { p with tf := fun v => ⟨sx * (p.tf v).x, sy * (p.tf v).y⟩ }

/-- Modelled from the spec: `page.translate_x(t)` shifts displayed
coordinates along X. -/
def pageTranslateX (t : ℚ) (p : Page) : Page :=
  { p with tf := fun v => ⟨(p.tf v).x + t, (p.tf v).y⟩ }

/-- Modelled from the spec: `page.translate_y(t)` shifts displayed
coordinates along Y. -/
def pageTranslateY (t : ℚ) (p : Page) : Page :=
  { p with tf := fun v => ⟨(p.tf v).x, (p.tf v).y + t⟩ }

/-- The body of the `for option in options` loop of `apply_transformations`
(lines 208-231), branch by branch; `recursive` and unknown options fall
through to the page unchanged. -/
def applyOne (p : Page) (o : String) : Page :=
  if o = "rotate90" then pageRotate 90 p
  else if o = "rotate180" then pageRotate 180 p
  else if o = "rotate270" then pageRotate 270 p
  else if o = "flipV" then
    pageTranslateY (pageScale 1 (-1) p).h (pageScale 1 (-1) p)
  else if o = "flipH" then
    pageTranslateX (pageScale (-1) 1 p).w (pageScale (-1) 1 p)
  else p

/-- `PDFConverter.apply_transformations`: early return on an empty option
list, otherwise the loop applies the options left to right. -/
def apply_transformations (page : Page) (options : List String) : Page :=
  if options.isEmpty then page else options.foldl applyOne page

/-- Point reflection through `c`, i.e. the 180-degree rotation about `c`. -/
def rot180about (c v : Pt) : Pt := ⟨2 * c.x - v.x, 2 * c.y - v.y⟩

/-! ## Top-level `process` (lines 267-317)

The body runs under `try`; `except Exception` converts any raised error
into `return False`.  The ambient effects are inputs: the result of the
output-conflict prompt (`none` models the user choosing to stop), the
outcome of `load_config`, the filesystem seen by the resolver, each file's
conversion outcome, and whether the final write succeeds. -/

/-- Outcome of `convert_to_pdf` for one file: a readable PDF with `n`
pages, `None` for an unsupported extension, or a raised exception
(unreadable/corrupt file). -/
inductive ConvOutcome where
  | pages (n : Nat)
  | unsupported
  | exc
deriving DecidableEq

/-- The ambient effects of one run. -/
structure Env where
  outputDecision : Option String
  configLoad : Except Unit Config
  expand : String → Bool → List String
  convert : String → ConvOutcome
  writeOk : Bool

/-- The `for file_info in files_with_options` loop (lines 289-306): a
conversion exception propagates; a `None` reader logs and continues; a
reader contributes its pages.  Returns the number of pages appended. -/
def forEachConvert (env : Env) : List Resolved → Except Unit Nat
  | [] => .ok 0
  | r :: rs =>
      match env.convert r.path with
      | .exc => .error ()
      | .unsupported => forEachConvert env rs
      | .pages n => (forEachConvert env rs).map (fun m => n + m)

/-- The `try` body of `PDFConverter.process`: stop on the user's abort,
load the config, resolve the files, convert each, then write. -/
def processBody (env : Env) : Except Unit Bool :=
  match env.outputDecision with
  | none => .ok false
  | some _ =>
      env.configLoad.bind fun config =>
        (process_files_array env.expand [] config.files).bind fun resolved =>
          (forEachConvert env resolved).bind fun _ =>
            if env.writeOk then .ok true else .error ()

/-- `PDFConverter.process`: the `except Exception` boundary turns any
raised error into `False`. -/
def process (env : Env) : Bool :=
  match processBody env with
  | .ok b => b
  | .error _ => false

/-! ## Helper lemmas -/

theorem foldl_append_eq_flatMap {α β : Type} (g : α → List β) :
    ∀ (l : List α) (acc : List β), l.foldl (fun a d => a ++ g d) acc = acc ++ l.flatMap g := by
  intro l
  induction l with
  | nil => intro acc; simp
  | cons x xs ih => intro acc; simp [ih]

theorem forEachConvert_all_unsupported (env : Env) :
    ∀ l : List Resolved, (∀ r ∈ l, env.convert r.path = ConvOutcome.unsupported) →
      forEachConvert env l = .ok 0 := by
  intro l
  induction l with
  | nil => intro _; rfl
  | cons r rs ih =>
    intro h
    unfold forEachConvert
    rw [h r (List.mem_cons_self r rs)]
    exact ih (fun x hx => h x (List.mem_cons_of_mem r hx))

theorem pfa_error_of_mem (expand : String → Bool → List String) (inh : List String) :
    ∀ (l : List ConfigItem) (item : ConfigItem), item ∈ l →
      processItem expand inh item = .error () →
      process_files_array expand inh l = .error () := by
  intro l
  induction l with
  | nil => intro item hmem _; exact absurd hmem (List.not_mem_nil item)
  | cons x rest ih =>
    intro item hmem herr
    unfold process_files_array
    rcases List.mem_cons.mp hmem with h | h
    · subst h; rw [herr]; rfl
    · cases hx : processItem expand inh x with
      | error e => rfl
      | ok head =>
        have hrest := ih item h herr
        rw [hrest]
        rfl

/-! ## The claims -/

/-- C1 (counterexample): the claim asserts that for every inherited list
`P` and child list `C` the emitted options contain no duplicates; the
source filters `C` only against `P` (line 172), so a duplicate inside `C`
survives.  With `P = []` and `C = ["b", "b"]` the entry's file is emitted
with options `["b", "b"]`, which has a duplicate. -/
theorem C1_duplicate_counterexample :
    processItem (fun s _ => [s]) []
        (ConfigItem.obj ⟨some [InnerItem.str "p"], some ["b", "b"]⟩) =
      .ok [⟨"p", ["b", "b"]⟩] ∧
    ¬ ([("b" : String), "b"].Nodup) :=
  ⟨rfl, by decide⟩

/-- C1 (amended): for every inherited options list `P` and entry object
with options `C`, every file emitted from that entry carries exactly `P`
followed by the elements of `C` not already present in `P`, in `C`'s
relative order; this list is duplicate-free whenever `P` and `C` are
themselves duplicate-free; and `P = ["a","b"]`, `C = ["b","c"]` yields
`["a","b","c"]`. -/
theorem C1_option_inheritance (expand : String → Bool → List String) (P C : List String)
    (inner : List InnerItem) (res : List Resolved)
    (hres : processItem expand P (ConfigItem.obj ⟨some inner, some C⟩) = .ok res) :
    (∀ r ∈ res, r.options = P ++ C.filter (fun o => !P.contains o)) ∧
    (P.Nodup → C.Nodup → (P ++ C.filter (fun o => !P.contains o)).Nodup) ∧
    mergeOptions ["a", "b"] ["b", "c"] = ["a", "b", "c"] := by
  refine ⟨?_, ?_, by decide⟩
  · intro r hr
    simp only [processItem] at hres
    cases hall : inner.all InnerItem.isStr with
    | false => rw [hall] at hres; simp at hres
    | true =>
      rw [hall] at hres
      simp only [if_true] at hres
      injection hres with hres
      subst hres
      rcases List.mem_flatMap.mp hr with ⟨p, -, hp⟩
      rcases List.mem_map.mp hp with ⟨f, -, rfl⟩
      rfl
  · intro hP hC
    refine List.Nodup.append hP (hC.filter _) ?_
    intro a haP haF
    have h2 := (List.mem_filter.mp haF).2
    have h3 : P.contains a = true := List.elem_eq_true_of_mem haP
    rw [h3] at h2
    simp at h2

/-- C1 (witness): the amended theorem applied at `P = ["a","b"]`,
`C = ["b","c"]`, a single inner path `"p"`, on a filesystem where each
path names a regular file. -/
theorem C1_option_inheritance_witness :
    (∀ r ∈ [Resolved.mk "p" ["a", "b", "c"]],
      r.options = ["a", "b"] ++ ["b", "c"].filter (fun o => !(List.contains ["a", "b"] o))) ∧
    (List.Nodup ["a", "b"] → List.Nodup ["b", "c"] →
      (["a", "b"] ++ ["b", "c"].filter (fun o => !(List.contains ["a", "b"] o))).Nodup) ∧
    mergeOptions ["a", "b"] ["b", "c"] = ["a", "b", "c"] :=
  C1_option_inheritance (fun s _ => [s]) ["a", "b"] ["b", "c"]
    [InnerItem.str "p"] [⟨"p", ["a", "b", "c"]⟩] rfl

/-- C2 (code bug): the image branch of `convert_to_pdf` removes the
transient `.temp.pdf` only on the statement after a successful read-back;
there is no `try/finally`, so when `pypdf.PdfReader` raises, the temp file
is left behind, contrary to the claim's guaranteed cleanup.  Evaluated: a
failing read-back leaves `tempExists = true` while the exception
propagates; a successful one cleans up. -/
theorem C2_temp_left_on_failure :
    (convert_image_run false ⟨false⟩).1.tempExists = true ∧
    (convert_image_run false ⟨false⟩).2 = .error () ∧
    (∀ s : ImgConvState, (convert_image_run true s).1.tempExists = false) :=
  ⟨rfl, rfl, fun _ => rfl⟩

/-- C4: recursive expansion returns the concatenation of per-directory
file listings — the directories in lexicographical order of their paths,
each directory's regular files in lexicographical order — and this is not
one global lexicographic sort of all file paths: on a directory `d` with
file `z.pdf` and subdirectory `d/sub` with file `a.pdf`, the code yields
`["d/z.pdf", "d/sub/a.pdf"]` while a global sort would put
`"d/sub/a.pdf"` first. -/
theorem C4_recursive_expansion (walk : List WalkDir) :
    get_files_recursive walk = specDirectoryConcat walk ∧
    get_files_recursive walkExample = ["d/z.pdf", "d/sub/a.pdf"] ∧
    get_files_recursive walkExample ≠ globalSortAllPaths walkExample := by
  refine ⟨?_, by decide, by decide⟩
  unfold get_files_recursive specDirectoryConcat perDirectoryListing
  exact (foldl_append_eq_flatMap
    (fun d => (sortStrings d.files).map (fun f => d.path ++ "/" ++ f))
    (sortWalkDirs walk) []).trans (List.nil_append _)


/-- A run whose config resolves to one file of an unsupported type with a
succeeding final write. -/
def envUnsup : Env :=
  { outputDecision := some "out.pdf"
    configLoad := .ok ⟨[ConfigItem.str "a.bin"]⟩
    expand := fun s _ => [s]
    convert := fun _ => .unsupported
    writeOk := true }

/-- C3 (counterexample): in `envUnsup` the single resolved file fails to
convert (`convert_to_pdf` returns `None` for its unsupported extension),
yet the loop merely logs and continues (line 306), the empty writer is
written, and `process` returns `True` — not the non-success result the
claim requires. -/
theorem C3_all_failed_counterexample :
    envUnsup.configLoad = .ok ⟨[ConfigItem.str "a.bin"]⟩ ∧
    process_files_array envUnsup.expand [] [ConfigItem.str "a.bin"] = .ok [⟨"a.bin", []⟩] ∧
    envUnsup.convert "a.bin" = ConvOutcome.unsupported ∧
    process envUnsup = true :=
  ⟨rfl, rfl, rfl, rfl⟩

/-- C3 (amended): when every resolved input file fails to convert because
its type is unsupported (conversion yields no pages without raising), the
run still completes and returns success exactly when the final write
succeeds; failure results come only from user abort, config load errors,
resolver errors, a raised conversion error, or a write error. -/
theorem C3_all_unsupported_success_iff_write (env : Env) (s : String) (cfg : Config)
    (resolved : List Resolved)
    (hdec : env.outputDecision = some s)
    (hload : env.configLoad = .ok cfg)
    (hres : process_files_array env.expand [] cfg.files = .ok resolved)
    (hconv : ∀ r ∈ resolved, env.convert r.path = ConvOutcome.unsupported) :
    process env = env.writeOk := by
  have hbody : processBody env = if env.writeOk then Except.ok true else Except.error () := by
    simp only [processBody, hdec, hload, Except.bind, hres,
      forEachConvert_all_unsupported env resolved hconv]
  unfold process
  rw [hbody]
  cases hw : env.writeOk with
  | true => simp
  | false => simp

/-- C3 (witness): the amended theorem applied to `envUnsup`, whose write
succeeds: the all-unsupported run returns `True`. -/
theorem C3_all_unsupported_witness : process envUnsup = true :=
  C3_all_unsupported_success_iff_write envUnsup "out.pdf" ⟨[ConfigItem.str "a.bin"]⟩
    [⟨"a.bin", []⟩] rfl rfl rfl (by decide)

/-- C5: for an entry object carrying a `files` field of path strings, the
resolver sorts that list lexicographically as a flat list of strings
(a stable global string sort of just this entry's list), expands each path
with the entry's recursion setting, and emits one resolved entry per
returned file, each carrying exactly the entry's merged options. -/
theorem C5_files_field_resolution (expand : String → Bool → List String) (P : List String)
    (paths : List String) (opts : Option (List String)) :
    processItem expand P (ConfigItem.obj ⟨some (paths.map InnerItem.str), opts⟩) =
      .ok ((sortStrings paths).flatMap
        (fun p =>
          (expand p ((entryOptions P ⟨some (paths.map InnerItem.str), opts⟩).contains
              "recursive")).map
            (fun f => ⟨f, entryOptions P ⟨some (paths.map InnerItem.str), opts⟩⟩))) ∧
    (sortStrings paths).Sorted (fun a b : String => strLe a b = true) ∧
    List.Perm (sortStrings paths) paths := by
  refine ⟨?_, List.sorted_insertionSort _ paths, List.perm_insertionSort _ paths⟩
  have h1 : (paths.map InnerItem.str).all InnerItem.isStr = true := by
    rw [List.all_eq_true]
    intro x hx
    rcases List.mem_map.mp hx with ⟨p, -, rfl⟩
    rfl
  have h2 : (paths.map InnerItem.str).filterMap InnerItem.getStr = paths := by
    rw [List.filterMap_map]
    have : (InnerItem.getStr ∘ InnerItem.str) = some := rfl
    rw [this, List.filterMap_some]
  simp only [processItem, h1, if_true, h2]

/-- C6: no exception escapes the caller of `process`: the `try/except
Exception` boundary (lines 274, 315-317) converts every raised internal
error into the returned boolean `False`, and a normally returned boolean
passes through unchanged. -/
theorem C6_exception_boundary (env : Env) :
    (∀ e : Unit, processBody env = .error e → process env = false) ∧
    (∀ b : Bool, processBody env = .ok b → process env = b) := by
  constructor
  · intro e h; unfold process; rw [h]
  · intro b h; unfold process; rw [h]

/-- A run whose config load raises. -/
def envLoadError : Env :=
  { outputDecision := some "out.pdf"
    configLoad := .error ()
    expand := fun s _ => [s]
    convert := fun _ => .pages 1
    writeOk := true }

/-- C6 (witness): on a run whose config load raises, the boundary yields
`False` rather than propagating. -/
theorem C6_exception_boundary_witness : process envLoadError = false :=
  (C6_exception_boundary envLoadError).1 () rfl

/-- C7: applying `rotate90` four times in succession returns the page to
its original orientation — the accumulated rotation entry grows to the
original plus 360, whose visible orientation (mod 360) is unchanged, and
the content mapping is untouched. -/
theorem C7_rotate90_four_times (page : Page) :
    pageOrientation (apply_transformations (apply_transformations (apply_transformations
        (apply_transformations page ["rotate90"]) ["rotate90"]) ["rotate90"]) ["rotate90"]) =
      pageOrientation page ∧
    (apply_transformations (apply_transformations (apply_transformations
        (apply_transformations page ["rotate90"]) ["rotate90"]) ["rotate90"]) ["rotate90"]).rot =
      page.rot + 360 ∧
    (apply_transformations (apply_transformations (apply_transformations
        (apply_transformations page ["rotate90"]) ["rotate90"]) ["rotate90"]) ["rotate90"]).tf =
      page.tf := by
  refine ⟨?_, ?_, rfl⟩
  · show (page.rot + 90 + 90 + 90 + 90) % 360 = page.rot % 360
    omega
  · show page.rot + 90 + 90 + 90 + 90 = page.rot + 360
    omega

/-- C8: on a page of width `W` and height `H`, `flipH` followed by `flipV`
sends every displayed point `(x, y)` to `(W - x, H - y)`, which is the
180-degree rotation (point reflection) about the page center
`(W/2, H/2)`. -/
theorem C8_flipH_then_flipV (page : Page) (v : Pt) :
    (apply_transformations page ["flipH", "flipV"]).tf v =
      ⟨page.w - (page.tf v).x, page.h - (page.tf v).y⟩ ∧
    (apply_transformations page ["flipH", "flipV"]).tf v =
      rot180about ⟨page.w / 2, page.h / 2⟩ (page.tf v) := by
  have key : (apply_transformations page ["flipH", "flipV"]).tf v =
      ⟨1 * ((-1) * (page.tf v).x + page.w), (-1) * (1 * (page.tf v).y) + page.h⟩ := rfl
  constructor
  · rw [key, Pt.mk.injEq]
    exact ⟨by ring, by ring⟩
  · rw [key]
    unfold rot180about
    rw [Pt.mk.injEq]
    exact ⟨by ring, by ring⟩

/-- C9: an entry object with no `files` field emits nothing — the `if
'files' in item` guard (line 180) is the only emission site for dict
entries, there is no warning path, and the rest of the array resolves
exactly as it would without the entry. -/
theorem C9_entry_without_files (expand : String → Bool → List String) (inh : List String)
    (e : EntryObj) (h : e.files = none) (rest : List ConfigItem) :
    processItem expand inh (ConfigItem.obj e) = .ok [] ∧
    process_files_array expand inh (ConfigItem.obj e :: rest) =
      process_files_array expand inh rest := by
  obtain ⟨f, o⟩ := e
  have hf : f = none := h
  subst hf
  refine ⟨rfl, ?_⟩
  have hcons : process_files_array expand inh (ConfigItem.obj ⟨none, o⟩ :: rest) =
      (process_files_array expand inh rest).bind fun tail => Except.ok ([] ++ tail) := rfl
  rw [hcons]
  cases hr : process_files_array expand inh rest with
  | ok t => simp [Except.bind]
  | error er => simp [Except.bind]

/-- C9 (witness): an options-only entry emits nothing and leaves the rest
of a two-entry array to resolve alone. -/
theorem C9_entry_without_files_witness :
    processItem (fun s _ => [s]) [] (ConfigItem.obj ⟨none, some ["rotate90"]⟩) = .ok [] ∧
    process_files_array (fun s _ => [s]) []
        [ConfigItem.obj ⟨none, some ["rotate90"]⟩, ConfigItem.str "x"] =
      process_files_array (fun s _ => [s]) [] [ConfigItem.str "x"] :=
  C9_entry_without_files (fun s _ => [s]) [] ⟨none, some ["rotate90"]⟩ rfl [ConfigItem.str "x"]

/-- C10: a non-string element inside an entry object's inner `files` list
(for example a nested entry object) makes the entry raise — Python's
`sorted` or `Path()` raises `TypeError` — so the resolver yields no list at
all, and the error is caught only at the `process` boundary: the whole run
returns `False` instead of skipping the element. -/
theorem C10_nonstring_inner_fails (env : Env) (cfg : Config) (s : String)
    (inner : List InnerItem) (opts : Option (List String))
    (hmem : InnerItem.nonstr ∈ inner)
    (hdec : env.outputDecision = some s)
    (hload : env.configLoad = .ok cfg)
    (hin : ConfigItem.obj ⟨some inner, opts⟩ ∈ cfg.files) :
    (∀ P : List String,
      processItem env.expand P (ConfigItem.obj ⟨some inner, opts⟩) = .error ()) ∧
    process env = false := by
  have hall : inner.all InnerItem.isStr = false := by
    cases hall2 : inner.all InnerItem.isStr with
    | false => rfl
    | true =>
      have := List.all_eq_true.mp hall2 InnerItem.nonstr hmem
      simp [InnerItem.isStr] at this
  have herr : ∀ P : List String,
      processItem env.expand P (ConfigItem.obj ⟨some inner, opts⟩) = .error () := by
    intro P
    simp only [processItem, hall]
    simp
  refine ⟨herr, ?_⟩
  have hres : process_files_array env.expand [] cfg.files = .error () :=
    pfa_error_of_mem env.expand [] cfg.files _ hin (herr [])
  have hbody : processBody env = .error () := by
    simp only [processBody, hdec, hload, Except.bind, hres]
  unfold process
  rw [hbody]

/-- A run whose config contains an entry object whose inner `files` list
holds a single non-string element. -/
def envNonstring : Env :=
  { outputDecision := some "out.pdf"
    configLoad := .ok ⟨[ConfigItem.obj ⟨some [InnerItem.nonstr], none⟩]⟩
    expand := fun s _ => [s]
    convert := fun _ => .pages 1
    writeOk := true }

/-- C10 (witness): with one non-string inner element the entry raises and
the whole run returns `False`. -/
theorem C10_nonstring_inner_fails_witness :
    (∀ P : List String,
      processItem envNonstring.expand P
        (ConfigItem.obj ⟨some [InnerItem.nonstr], none⟩) = .error ()) ∧
    process envNonstring = false :=
  C10_nonstring_inner_fails envNonstring ⟨[ConfigItem.obj ⟨some [InnerItem.nonstr], none⟩]⟩
    "out.pdf" [InnerItem.nonstr] none (List.mem_singleton.mpr rfl) rfl rfl
    (List.mem_singleton.mpr rfl)
